import Mathlib

/-!
Verification development for the aiops incident-response pipeline.

The definitions below are a shallow embedding of the program's core:

* `src/knowledge_graph/graph.py` — the `KnowledgeGraph` store: graph state,
  `add_service`, `add_dependency` (the Cypher `MATCH`/`MATCH`/`MERGE`/`SET`
  write), and `multi_hop_analysis` (the variable-length Cypher path query
  with the health filter and the multiplicative impact score).
* `src/agents/orchestrator/core.py` — `Tool.execute`, the
  `_execute_tool_calls` loop, `OllamaAgent.execute` with its top-level
  exception conversion, and `AgentOrchestrator.execute_incident_workflow`.
* `src/agents/specialized/incident_agents.py` — the rule-based triage
  classification and `ActionExecutor.execute`.

Modelling conventions:

* Python's dynamically-typed dictionaries/values are embedded as the `Json`
  inductive; the dynamic operations the code performs on them (`x.get`,
  `x[k]`, `for v in x`, `k in x`) are embedded as `Except`-valued functions
  that return the Python exception (`PyErr`) exactly where CPython raises.
* Cypher floats are embedded as `Rat` (the score arithmetic 1.0, 0.8, 0.9
  is exact in every binary-coded decimal reading that matters here; using
  rationals keeps the fold exact).
* External collaborators (the Neo4j driver transport, the Ollama chat
  endpoint, Kubernetes patching, `json.loads`) are parameters ("oracles")
  supplied to the embedded functions; the control flow around them is
  translated from the source.
* Timestamp fields (`updated_at`, `last_updated`, history timestamps) and
  the JSON-serialised `labels` blob are not modelled: no claim mentions
  them and no control flow reads them.
-/

namespace Aether

/-- A Python/JSON dynamic value (`Dict[str, Any]` territory). -/
inductive Json where
  | null
  | bool (b : Bool)
  | num (n : Int)
  | str (s : String)
  | arr (elts : List Json)
  | obj (fields : List (String × Json))

/-- The Python exceptions the embedded code can raise. -/
inductive PyErr where
  | typeError (msg : String)
  | attributeError (msg : String)
  | keyError (msg : String)
deriving DecidableEq

/-- Models Python `str(e)` on an exception, as used in `f"...{str(e)}"`. -/
def pyErrStr : PyErr → String
  | .typeError m => m
  | .attributeError m => m
  | .keyError m => m

/-- Models `x.get(k, default)`: only dictionaries have `.get`; any other
value raises `AttributeError`. -/
def pyDictGet (j : Json) (k : String) (default : Json) : Except PyErr Json :=
  match j with
  | .obj kvs =>
      match kvs.find? (fun p => decide (p.1 = k)) with
      | some p => .ok p.2
      | none => .ok default
  | _ => .error (.attributeError ("object has no attribute get: " ++ k))

/-- Models `x[k]` for a string key `k`: dictionary lookup (raising
`KeyError` when absent); every non-dictionary receiver raises `TypeError`
(`object is not subscriptable` / `indices must be integers`). -/
def pySubscript (j : Json) (k : String) : Except PyErr Json :=
  match j with
  | .obj kvs =>
      match kvs.find? (fun p => decide (p.1 = k)) with
      | some p => .ok p.2
      | none => .error (.keyError k)
  | _ => .error (.typeError ("object is not subscriptable: " ++ k))

/-- Models `for v in x`: lists yield elements, strings yield one-character
strings, dictionaries yield their keys; other values raise `TypeError`. -/
def pyIter : Json → Except PyErr (List Json)
  | .arr xs => .ok xs
  | .str s => .ok (s.toList.map (fun c => Json.str (String.mk [c])))
  | .obj kvs => .ok (kvs.map (fun p => Json.str p.1))
  | _ => .error (.typeError "object is not iterable")

/-- Models `k in x` for a string `k`: key test on dictionaries, element
equality on lists, substring test on strings; other receivers raise
`TypeError`. -/
def pyContains (j : Json) (k : String) : Except PyErr Bool :=
  match j with
  | .obj kvs => .ok (kvs.any (fun p => decide (p.1 = k)))
  | .arr xs =>
      .ok (xs.any (fun x => match x with | .str s => decide (s = k) | _ => false))
  | .str s => .ok (decide (1 < (s.splitOn k).length))
  | _ => .error (.typeError "argument is not iterable")

/-- Models Python `x == "lit"` where `x` is a dynamic value and the literal
is a string: true exactly when `x` is that string. -/
def jsonEqStr (j : Json) (s : String) : Bool :=
  match j with
  | .str t => decide (t = s)
  | _ => false

/-! ## Knowledge graph (`src/knowledge_graph/graph.py`)

The Neo4j database state reachable through this module: `Service` nodes
(unique by `name` thanks to the `service_name` constraint installed by
`init_schema`) and `DEPENDS_ON` relationships. A relationship may or may
not carry a `metrics` property — `multi_hop_analysis` branches on
`r.metrics IS NOT NULL`, so the stored edge records it as an `Option`. -/

/-- The `Service` dataclass / the stored `:Service` node (the `labels`
blob and timestamps are not modelled; no claim reads them). -/
structure ServiceNode where
  name : String
  ns : String
  service_type : String
  status : String
deriving DecidableEq

/-- The `Dependency` dataclass passed to `add_dependency` — note it
declares a `metrics` field. -/
structure Dependency where
  source : String
  target : String
  dependency_type : String
  protocol : String
  port : Nat
  metrics : Option (List (String × Rat))
deriving DecidableEq

/-- A stored `DEPENDS_ON` relationship and the properties the module's
queries read or write. -/
structure DepEdge where
  source : String
  target : String
  dependency_type : String
  protocol : String
  port : Nat
  metrics : Option (List (String × Rat))
deriving DecidableEq

/-- The graph database state. -/
structure Graph where
  nodes : List ServiceNode
  edges : List DepEdge
deriving DecidableEq

/-- `MATCH (s:Service {name: $name})` under the uniqueness constraint. -/
def findNode (g : Graph) (name : String) : Option ServiceNode :=
  g.nodes.find? (fun n => decide (n.name = name))

/-- `KnowledgeGraph.add_service`: `MERGE` on `(name, namespace)` then `SET`
of the mutable attributes. Returns the new state and the function's
boolean result (`True` on the non-exception path). -/
def addService (g : Graph) (s : ServiceNode) : Graph × Bool :=
  if g.nodes.any (fun n => decide (n.name = s.name) && decide (n.ns = s.ns)) then
    ({ g with nodes := g.nodes.map (fun n =>
        if decide (n.name = s.name) && decide (n.ns = s.ns) then
          { n with service_type := s.service_type, status := s.status }
        else n) }, true)
  else
    ({ g with nodes := g.nodes ++ [s] }, true)

/-- Both `MATCH (source:Service {name})` and `MATCH (target:Service
{name})` produce a row. -/
def endpointsExist (g : Graph) (d : Dependency) : Bool :=
  g.nodes.any (fun n => decide (n.name = d.source)) &&
    g.nodes.any (fun n => decide (n.name = d.target))

/-- The `MERGE` key: the relationship between this source and target. -/
def edgeKeyMatches (d : Dependency) (e : DepEdge) : Bool :=
  decide (e.source = d.source) && decide (e.target = d.target)

/-- The `SET` clause of `add_dependency`: writes `dependency_type`,
`protocol` and `port` on the matched relationship — and nothing else; in
particular it does not write `r.metrics`. -/
def setEdgeProps (d : Dependency) (e : DepEdge) : DepEdge :=
  if edgeKeyMatches d e then
    { e with dependency_type := d.dependency_type, protocol := d.protocol,
             port := d.port }
  else e

/-- The relationship `MERGE` creates when the key has no match: its only
properties are the ones the following `SET` writes, so `metrics` is
absent (`none`) — the `metrics` field of the `Dependency` argument is
dropped. -/
def newEdge (d : Dependency) : DepEdge :=
  { source := d.source, target := d.target,
    dependency_type := d.dependency_type, protocol := d.protocol,
    port := d.port, metrics := none }

/-- `KnowledgeGraph.add_dependency`: `MATCH` both endpoints by name, then
`MERGE (source)-[r:DEPENDS_ON]->(target)` and `SET`. An unmatched `MATCH`
makes the whole Cypher statement a no-op (no row, no error raised), after
which the Python function still returns `True`. -/
def addDependency (g : Graph) (d : Dependency) : Graph × Bool :=
  if endpointsExist g d then
    if g.edges.any (edgeKeyMatches d) then
      ({ g with edges := g.edges.map (setEdgeProps d) }, true)
    else
      ({ g with edges := g.edges ++ [newEdge d] }, true)
  else
    (g, true)

/-- The relationships leaving a node, tagged with their position in the
edge list: Cypher path matching never reuses a relationship within one
path, and position is the relationship's identity. -/
def edgesFrom (g : Graph) (name : String) : List (Nat × DepEdge) :=
  g.edges.enum.filter (fun p => decide (p.2.source = name))

/-- All directed paths of the pattern `-[:DEPENDS_ON*1..fuel]->` starting
at `cur`, as (traversed relationships, nodes after the start), relationship
reuse excluded via `used`. Total by structural recursion on the hop
bound, so the traversal terminates on every graph, cyclic or not. -/
def pathsFrom (g : Graph) : Nat → ServiceNode → List Nat → List (List (Nat × DepEdge) × List ServiceNode)
  | 0, _, _ => []
  | fuel + 1, cur, used =>
    (edgesFrom g cur.name).flatMap (fun ie =>
      if used.contains ie.1 then []
      else
        match findNode g ie.2.target with
        | none => []
        | some t =>
          ([ie], [t]) :: (pathsFrom g fuel t (ie.1 :: used)).map
            (fun p => (ie :: p.1, t :: p.2)))

/-- Rational multiplication, spelled through `mkRat` so that it evaluates
by kernel reduction (`Rat.mul` itself is `@[irreducible]`); `ratMul_eq_mul`
proves it is ordinary multiplication. -/
def ratMul (a b : Rat) : Rat := mkRat (a.num * b.num) (a.den * b.den)

theorem ratMul_eq_mul (a b : Rat) : ratMul a b = a * b := by
  rw [ratMul, Rat.mul_def]
  simp [Rat.normalize_eq_mkRat]

/-- The query's `reduce(score = 1.0, r IN relationships(path) | score *
(CASE WHEN r.metrics IS NOT NULL THEN 0.8 ELSE 0.9 END))`. -/
def impactScore (p : List (Nat × DepEdge)) : Rat :=
  p.foldl (fun sc ie => ratMul sc (if ie.2.metrics.isSome then mkRat 8 10 else mkRat 9 10)) 1

/-- One row returned by `multi_hop_analysis`. -/
structure RootCauseRecord where
  service : String
  ns : String
  status : String
  hops : Nat
  impact_score : Rat
  path_services : List String
deriving DecidableEq

/-- `ORDER BY impact_score DESC, hops ASC` as a pairwise key comparison. -/
def recBefore (a b : RootCauseRecord) : Bool :=
  decide (b.impact_score < a.impact_score) ||
    (decide (a.impact_score = b.impact_score) && decide (a.hops ≤ b.hops))

/-- Stable insertion into a list sorted by `le`. -/
def insertSorted (le : α → α → Bool) (a : α) : List α → List α
  | [] => [a]
  | b :: bs => if le a b then a :: b :: bs else b :: insertSorted le a bs

/-- Stable insertion sort by `le`. -/
def sortedBy (le : α → α → Bool) (l : List α) : List α :=
  l.foldr (insertSorted le) []

/-- The `RETURN` clause: one record from a surviving path — terminal
(root) service attributes, hop count, score, and the ordered node names. -/
def mkRootCauseRecord (st : ServiceNode)
    (p : List (Nat × DepEdge) × List ServiceNode) : RootCauseRecord :=
  let root := p.2.getLastD st
  { service := root.name, ns := root.ns, status := root.status,
    hops := p.1.length, impact_score := impactScore p.1,
    path_services := (st :: p.2).map (fun n => n.name) }

/-- The query's path filter: `ALL(n IN nodes(path) WHERE n.status <>
'healthy')` (start node included) and `impact_score >= $min_score`. -/
def pathSurvives (min_score : Rat) (st : ServiceNode)
    (p : List (Nat × DepEdge) × List ServiceNode) : Bool :=
  (st :: p.2).all (fun n => decide (n.status ≠ "healthy")) &&
    decide (min_score ≤ impactScore p.1)

/-- `KnowledgeGraph.multi_hop_analysis`: match every path
`(start {name})-[:DEPENDS_ON*1..max_hops]->(root)`, keep only paths all of
whose nodes (the start included) have `status <> 'healthy'`, score each
path by the multiplicative fold over its relationships, keep scores
`>= min_score`, and return one record per surviving path, ordered by
`impact_score DESC, hops ASC`. -/
def multiHopAnalysis (g : Graph) (start_service : String) (max_hops : Nat)
    (min_score : Rat) : List RootCauseRecord :=
  match findNode g start_service with
  | none => []
  | some st =>
    sortedBy recBefore
      (((pathsFrom g max_hops st []).filter (pathSurvives min_score st)).map
        (mkRootCauseRecord st))

/-! ## Agent data model (`src/agents/orchestrator/core.py`) -/

/-- The `AgentState` enum. -/
inductive AgentState where
  | idle
  | thinking
  | executing
  | completed
  | error
deriving DecidableEq

/-- One entry of `AgentContext.findings` as the orchestrator appends it:
`{"agent": ..., "message": ..., "data": ...}`. -/
structure Finding where
  agent : String
  message : String
  data : Json

/-- The `AgentContext` dataclass (`metadata` is carried but no claim-relevant
code branches on it). -/
structure AgentContext where
  incident_id : String
  service_name : String
  ns : String
  symptoms : List String
  findings : List Finding
  actions_taken : List Json
  metadata : Json

/-- The `AgentResult` dataclass. -/
structure AgentResult where
  success : Bool
  message : String
  data : Json
  next_agent : Option String
  terminate : Bool

/-! ## Tools (`Tool.execute`, `OllamaAgent._execute_tool_calls`) -/

/-- One parameter of the Python implementation function's signature (the
only call-binding facts that matter for `f(**kwargs)`: its name and
whether it has a default). -/
structure PyParam where
  name : String
  has_default : Bool
deriving DecidableEq

/-- The declared JSON-schema of a tool's parameters: property names and
the `required` list. -/
structure ToolSchema where
  properties : List String
  required : List String
deriving DecidableEq

/-- A registered `Tool`: declared schema, the implementation's Python
signature, and the implementation itself (an external collaborator,
supplied as an oracle that may raise). -/
structure ToolDef where
  name : String
  description : String
  parameters : ToolSchema
  py_params : List PyParam
  impl : List (String × Json) → Except PyErr Json

/-- One tool call requested by the reasoning service, already through
`json.loads(tool_call.function.arguments)`. -/
structure ToolCall where
  name : String
  args : List (String × Json)

/-- CPython keyword-argument binding for `f(**kwargs)`: every supplied
name must be a parameter, and every parameter without a default must be
supplied. -/
def bindOk (ps : List PyParam) (argNames : List String) : Bool :=
  argNames.all (fun a => ps.any (fun p => decide (p.name = a))) &&
    ps.all (fun p => p.has_default || argNames.contains p.name)

/-- `Tool.execute(**kwargs)`: the call binds (then the implementation
runs, its exceptions propagating) or raises `TypeError` at the call site.
No schema is consulted. -/
def toolExecute (t : ToolDef) (args : List (String × Json)) : Except PyErr Json :=
  if bindOk t.py_params (args.map (fun a => a.1)) then t.impl args
  else .error (.typeError ("unexpected or missing keyword argument for " ++ t.name))

/-- Python dict assignment `d[k] = v` on an association list. -/
def dictInsert (k : String) (v : Json) : List (String × Json) → List (String × Json)
  | [] => [(k, v)]
  | (k', v') :: rest =>
      if decide (k' = k) then (k', v) :: rest else (k', v') :: dictInsert k v rest

/-- The loop body of `OllamaAgent._execute_tool_calls` with its results
dictionary accumulator. -/
def executeToolCallsAux (tools : List ToolDef) (acc : List (String × Json)) :
    List ToolCall → Except PyErr (List (String × Json))
  | [] => .ok acc
  | c :: cs =>
    match tools.find? (fun t => decide (t.name = c.name)) with
    | some t => do
        let r ← toolExecute t c.args
        executeToolCallsAux tools (dictInsert c.name r acc) cs
    | none =>
        executeToolCallsAux tools
          (dictInsert c.name
            (Json.obj [("error", Json.str ("Tool " ++ c.name ++ " not found"))]) acc) cs

/-- `OllamaAgent._execute_tool_calls`: for each requested call, find the
tool by name and execute it (no argument validation against the declared
schema happens anywhere on this path); an unknown tool name records an
error entry instead. A raised `TypeError`/implementation exception
propagates and abandons the remaining calls. -/
def executeToolCalls (tools : List ToolDef) (calls : List ToolCall) :
    Except PyErr (List (String × Json)) :=
  executeToolCallsAux tools [] calls

/-! ## `OllamaAgent.execute` -/

/-- A chat message as `OllamaAgent.execute` consumes it. -/
structure ChatMessage where
  content : String
  tool_calls : List ToolCall

/-- The two reasoning-service round trips of one `execute` call (the
second is consumed only when the first requested tool calls); `.error`
is the service raising (timeout, connectivity, malformed response). -/
structure ReasoningOracle where
  first : Except PyErr ChatMessage
  second : Except PyErr ChatMessage

/-- `OllamaAgent._parse_response`; `loads` is the `json.loads` oracle
(`none` = `JSONDecodeError`, caught and turned into the opaque-message
fallback). -/
def parseResponse (loads : String → Option Json) (content : String) : Json :=
  let fallback := Json.obj [("response", Json.str content)]
  if 1 < (content.splitOn "```json").length then
    match (content.splitOn "```json").get? 1 with
    | some seg =>
        match loads ((seg.splitOn "```").headD "") with
        | some j => j
        | none => fallback
    | none => fallback
  else if 1 < (content.splitOn "```").length then
    match (content.splitOn "```").get? 1 with
    | some seg =>
        match loads ((seg.splitOn "```").headD "") with
        | some j => j
        | none => fallback
    | none => fallback
  else
    match loads content with
    | some j => j
    | none => fallback

/-- The `try:` body of `OllamaAgent.execute`: first chat round; if the
response requested tool calls, run them and make the follow-up round;
parse the final content. Any exception escapes as `.error`. -/
def ollamaBody (tools : List ToolDef) (oracle : ReasoningOracle)
    (loads : String → Option Json) : Except PyErr AgentResult := do
  let msg ← oracle.first
  let finalMsg ←
    if msg.tool_calls.isEmpty then pure msg
    else do
      let _ ← executeToolCalls tools msg.tool_calls
      oracle.second
  pure { success := true,
         message := if decide (finalMsg.content = "") then "Task completed" else finalMsg.content,
         data := parseResponse loads finalMsg.content,
         next_agent := none, terminate := false }

/-- `OllamaAgent.execute`: the whole body runs under `try/except
Exception`, so every raised failure is converted into an
`AgentResult(success=False, message=f"Error executing {name}: {e}")` and
the state becomes `ERROR`; nothing propagates to the caller. -/
def ollamaAgentExecute (name : String) (tools : List ToolDef)
    (oracle : ReasoningOracle) (loads : String → Option Json)
    (_ctx : AgentContext) : AgentState × AgentResult :=
  match ollamaBody tools oracle loads with
  | .ok r => (AgentState.completed, r)
  | .error e =>
      (AgentState.error,
       { success := false,
         message := "Error executing " ++ name ++ ": " ++ pyErrStr e,
         data := Json.obj [], next_agent := none, terminate := false })

/-! ## Triage fallback (`TriageAgent._rule_based_classification`) -/

def availabilityKeywords : List String := ["crash", "error", "failure", "down"]

def performanceKeywords : List String := ["slow", "latency", "timeout", "performance"]

def resourceKeywords : List String := ["memory", "cpu", "disk", "resource"]

def degradationKeywords : List String := ["warning", "degraded"]

/-- Python `s.lower()`, spelled character-wise so that it evaluates by
kernel reduction (`String.toLower` is definitionally the same map but its
`String.map` implementation does not reduce). -/
def strLower (s : String) : String :=
  String.mk (s.toList.map Char.toLower)

/-- `TriageAgent._rule_based_classification`: lowercase the symptom list,
then test each keyword for list membership (`s in symptoms_lower`) in the
fixed category order; the first matching category decides. -/
def ruleBasedClassification (symptoms : List String) : String × String :=
  let symptoms_lower := symptoms.map (fun s => strLower s)
  if availabilityKeywords.any (fun s => symptoms_lower.contains s) then
    ("critical", "availability")
  else if performanceKeywords.any (fun s => symptoms_lower.contains s) then
    ("high", "performance")
  else if resourceKeywords.any (fun s => symptoms_lower.contains s) then
    ("medium", "resource")
  else if degradationKeywords.any (fun s => symptoms_lower.contains s) then
    ("low", "degradation")
  else
    ("unknown", "unknown")

/-! ## `ActionExecutor.execute` (`src/agents/specialized/incident_agents.py`) -/

/-- Which of the two fixed patches `_scale_service` / `_update_resources`
builds before handing it to the `apply_yaml_patch` tool. -/
inductive PatchKind where
  | scale
  | resource
deriving DecidableEq

/-- The `try:` block around one action's execution: subscript `type`,
`resource` and `namespace` (any `KeyError`/`TypeError` here is caught),
dispatch to the patch collaborator, and record the outcome; an action
whose `type` is neither `scale` nor `resource` records nothing. -/
def tryExecuteAction (applyPatch : PatchKind → Json → Json → Except PyErr Json)
    (action : Json) : List Json :=
  let body : Except PyErr (List Json) := do
    let ty ← pySubscript action "type"
    if jsonEqStr ty "scale" then do
      let r ← pySubscript action "resource"
      let ns ← pySubscript action "namespace"
      let res ← applyPatch PatchKind.scale r ns
      pure [Json.obj [("action", action), ("result", res), ("status", Json.str "executed")]]
    else if jsonEqStr ty "resource" then do
      let r ← pySubscript action "resource"
      let ns ← pySubscript action "namespace"
      let res ← applyPatch PatchKind.resource r ns
      pure [Json.obj [("action", action), ("result", res), ("status", Json.str "executed")]]
    else
      pure []
  match body with
  | .ok es => es
  | .error e =>
      [Json.obj [("action", action), ("error", Json.str (pyErrStr e)), ("status", Json.str "failed")]]

/-- One iteration of the action loop. The gate
`if self.auto_execute or action.get("severity") == "critical"` short
circuits: with `auto_execute` unset, `action.get` runs OUTSIDE any
`try`, so on a non-dictionary action its `AttributeError` propagates out
of `ActionExecutor.execute`. -/
def processAction (auto_execute : Bool)
    (applyPatch : PatchKind → Json → Json → Except PyErr Json)
    (action : Json) : Except PyErr (List Json) :=
  if auto_execute then .ok (tryExecuteAction applyPatch action)
  else do
    let sev ← pyDictGet action "severity" Json.null
    if jsonEqStr sev "critical" then pure (tryExecuteAction applyPatch action)
    else pure [Json.obj [("action", action), ("status", Json.str "pending_approval")]]

/-- `a["status"] == s` on the entry dictionaries this agent constructs. -/
def hasStatus (e : Json) (s : String) : Bool :=
  match e with
  | .obj kvs =>
      match kvs.find? (fun p => decide (p.1 = "status")) with
      | some p => jsonEqStr p.2 s
      | none => false
  | _ => false

/-- `ActionExecutor.execute`: walk the findings produced by the
remediation advisor, read their `actions` collection dynamically, process
each action, and return a result that always has `success=True` and
`terminate=True`. Unlike `OllamaAgent.execute`, this override has NO
top-level `try/except`, so the dynamic reads outside the inner `try`
(`data.get`, the iteration, `action.get`) raise out of the method.
`actionExecutorEntries` is the `executed_actions` accumulation loop. -/
def actionExecutorEntries (auto_execute : Bool)
    (applyPatch : PatchKind → Json → Json → Except PyErr Json)
    (ctx : AgentContext) : Except PyErr (List Json) :=
  ctx.findings.foldlM (fun acc f =>
    if decide (f.agent = "remediation_advisor") then do
      let actionsJ ← pyDictGet f.data "actions" (Json.arr [])
      let actions ← pyIter actionsJ
      actions.foldlM (fun acc2 action => do
        let es ← processAction auto_execute applyPatch action
        pure (acc2 ++ es)) acc
    else pure acc) []

/-- The body of `ActionExecutor.execute`: accumulate the entries, count
the executed and pending ones for the message, and return a result that
always carries `success=True` and `terminate=True`. -/
def actionExecutorExecute (auto_execute : Bool)
    (applyPatch : PatchKind → Json → Json → Except PyErr Json)
    (ctx : AgentContext) : Except PyErr (AgentState × AgentResult) := do
  let entries ← actionExecutorEntries auto_execute applyPatch ctx
  let nExec := (entries.filter (fun e => hasStatus e "executed")).length
  let nPend := (entries.filter (fun e => hasStatus e "pending_approval")).length
  pure (AgentState.completed,
    { success := true,
      message := "Executed " ++ toString nExec ++ " actions, " ++
        toString nPend ++ " pending approval",
      data := Json.obj [("executed_actions", Json.arr entries), ("terminate", Json.bool true)],
      next_agent := none, terminate := true })

/-! ## Orchestrator (`AgentOrchestrator.execute_incident_workflow`)

An agent is embedded as what the orchestrator loop observes of
`await agent.execute(self.context)`: a function of the shared context
that either returns an `AgentResult` or raises. The source agents read
the context and never mutate it (they build fresh local lists and a fresh
`AgentContext` for their LLM round); only the orchestrator writes the
shared context. -/

/-- A per-step entry of the returned `results` list. -/
inductive StepEntry where
  | executed (agent : String) (success : Bool) (message : String) (data : Json)
  | notFound (agent : String)

/-- An `execution_history` entry (the wall-clock timestamp is not
modelled). -/
structure HistEntry where
  agent : String
  result : AgentResult

/-- The loop state of one workflow run. `terminated` records that the
loop exited through the `break` of a `terminate=True` result. -/
structure RunState where
  ctx : AgentContext
  results : List StepEntry
  history : List HistEntry
  terminated : Bool

/-- The finding dictionary the orchestrator appends for a successful
step. -/
def mkFinding (name : String) (r : AgentResult) : Finding :=
  { agent := name, message := r.message, data := r.data }

/-- The context update for one executed step: on success append the
finding and, if the result data contains an `actions` collection, extend
`actions_taken` with its elements (`"actions" in result.data` and the
iteration follow Python dynamic semantics and may raise). -/
def applyResultToContext (ctx : AgentContext) (name : String) (r : AgentResult) :
    Except PyErr AgentContext :=
  if r.success then do
    let ctx1 := { ctx with findings := ctx.findings ++ [mkFinding name r] }
    let hasActs ← pyContains r.data "actions"
    if hasActs then do
      let av ← pySubscript r.data "actions"
      let newActs ← pyIter av
      pure { ctx1 with actions_taken := ctx1.actions_taken ++ newActs }
    else pure ctx1
  else pure ctx

/-- The step loop of `execute_incident_workflow`: unregistered names get
an error entry and the loop continues; otherwise the agent runs (its
exceptions propagate — the loop has no handler), the context is updated,
the per-step entry and the history entry are appended, and a
`terminate=True` result breaks the loop. -/
def runFlow (agents : String → Option (AgentContext → Except PyErr AgentResult)) :
    List String → RunState → Except PyErr RunState
  | [], s => .ok s
  | name :: rest, s =>
    match agents name with
    | none => runFlow agents rest { s with results := s.results ++ [StepEntry.notFound name] }
    | some ag => do
      let r ← ag s.ctx
      let ctx' ← applyResultToContext s.ctx name r
      let s' : RunState :=
        { ctx := ctx',
          results := s.results ++ [StepEntry.executed name r.success r.message r.data],
          history := s.history ++ [{ agent := name, result := r }],
          terminated := s.terminated }
      if r.terminate then .ok { s' with terminated := true }
      else runFlow agents rest s'

/-- The summary `execute_incident_workflow` returns. -/
structure RunSummary where
  incident_id : String
  service : String
  status : String
  results : List StepEntry
  findings : List Finding
  actions_taken : List Json

/-- The fresh `AgentContext` initialised at the top of
`execute_incident_workflow`. -/
def initialContext (incident_id service_name ns : String)
    (symptoms : List String) : AgentContext :=
  { incident_id := incident_id, service_name := service_name, ns := ns,
    symptoms := symptoms, findings := [], actions_taken := [],
    metadata := Json.obj [] }

/-- `AgentOrchestrator.execute_incident_workflow`. -/
def executeIncidentWorkflow
    (agents : String → Option (AgentContext → Except PyErr AgentResult))
    (incident_id service_name ns : String) (symptoms : List String)
    (flow : List String) : Except PyErr RunSummary := do
  let s ← runFlow agents flow
    { ctx := initialContext incident_id service_name ns symptoms,
      results := [], history := [], terminated := false }
  pure { incident_id := incident_id, service := service_name,
         status := "completed", results := s.results,
         findings := s.ctx.findings, actions_taken := s.ctx.actions_taken }

/-! ## Fixtures for the spec's end-to-end scenario and concrete checks -/

/-- A service node fixture (default namespace, backend type). -/
def svc (n : String) (st : String) : ServiceNode :=
  { name := n, ns := "default", service_type := "backend", status := st }

/-- A `Dependency` argument fixture. -/
def dep (s t : String) (m : Option (List (String × Rat))) : Dependency :=
  { source := s, target := t, dependency_type := "calls", protocol := "http",
    port := 80, metrics := m }

/-- The spec's end-to-end scenario built through the repository's own
writers: services A, B, C all unhealthy, `add_dependency(A→B)` with no
metric annotations and `add_dependency(B→C)` with a `Dependency` whose
`metrics` field is populated. -/
def scenarioGraph : Graph :=
  let g0 : Graph := { nodes := [], edges := [] }
  let g1 := (addService g0 (svc "A" "unhealthy")).1
  let g2 := (addService g1 (svc "B" "unhealthy")).1
  let g3 := (addService g2 (svc "C" "unhealthy")).1
  let g4 := (addDependency g3 (dep "A" "B" none)).1
  let g5 := (addDependency g4 (dep "B" "C" (some [("latency", 1)]))).1
  g5

/-! ## Helper lemmas -/

theorem mem_insertSorted {le : α → α → Bool} {a b : α} {l : List α} :
    a ∈ insertSorted le b l ↔ a = b ∨ a ∈ l := by
  induction l with
  | nil => simp [insertSorted]
  | cons c cs ih =>
    by_cases h : le b c = true
    · simp [insertSorted, h]
    · simp only [insertSorted, if_neg h, List.mem_cons, ih]
      tauto

theorem mem_sortedBy {le : α → α → Bool} {a : α} {l : List α} :
    a ∈ sortedBy le l ↔ a ∈ l := by
  induction l with
  | nil => simp [sortedBy]
  | cons c cs ih =>
    simp only [sortedBy, List.foldr_cons, mem_insertSorted, List.mem_cons]
    rw [show cs.foldr (insertSorted le) [] = sortedBy le cs from rfl, ih]

theorem findNode_name {g : Graph} {nm : String} {n : ServiceNode}
    (h : findNode g nm = some n) : n.name = nm := by
  have := List.find?_some h
  simpa using this

theorem findNode_self {g : Graph} {nm : String} {n : ServiceNode}
    (h : findNode g nm = some n) : findNode g n.name = some n := by
  rw [findNode_name h]; exact h

/-- Structural facts about every enumerated path: between 1 and `fuel`
hops, as many nodes as hops, and every node on it is what the graph
resolves its name to. -/
theorem pathsFrom_spec {g : Graph} {fuel : Nat} {st : ServiceNode}
    {used : List Nat} {p : List (Nat × DepEdge) × List ServiceNode}
    (h : p ∈ pathsFrom g fuel st used) :
    (1 ≤ p.1.length ∧ p.1.length ≤ fuel) ∧
      p.2.length = p.1.length ∧
      (∀ n ∈ p.2, findNode g n.name = some n) := by
  induction fuel generalizing st used p with
  | zero => simp [pathsFrom] at h
  | succ fuel ih =>
    simp only [pathsFrom, List.mem_flatMap] at h
    obtain ⟨ie, _hie, hmem⟩ := h
    by_cases hused : used.contains ie.1
    · rw [if_pos hused] at hmem
      simp at hmem
    · rw [if_neg hused] at hmem
      cases hfind : findNode g ie.2.target with
      | none => rw [hfind] at hmem; simp at hmem
      | some t =>
        rw [hfind] at hmem
        simp only [List.mem_cons, List.mem_map] at hmem
        rcases hmem with rfl | ⟨q, hq, rfl⟩
        · refine ⟨⟨by simp, by simp⟩, by simp, ?_⟩
          intro n hn
          simp only [List.mem_singleton] at hn
          subst hn
          exact findNode_self hfind
        · obtain ⟨⟨h1, h2⟩, hlen, hres⟩ := ih hq
          refine ⟨⟨by simp, by simpa using Nat.succ_le_succ h2⟩, by simpa using hlen, ?_⟩
          intro n hn
          rcases List.mem_cons.mp hn with rfl | hn'
          · exact findNode_self hfind
          · exact hres n hn'

/-- Every returned record comes from a matched surviving path. -/
theorem mem_multiHopAnalysis {g : Graph} {start : String} {h : Nat} {m : Rat}
    {rec : RootCauseRecord} (hr : rec ∈ multiHopAnalysis g start h m) :
    ∃ st p, findNode g start = some st ∧ p ∈ pathsFrom g h st [] ∧
      (∀ n ∈ st :: p.2, n.status ≠ "healthy") ∧
      rec = mkRootCauseRecord st p := by
  unfold multiHopAnalysis at hr
  cases hst : findNode g start with
  | none => rw [hst] at hr; simp at hr
  | some st =>
    rw [hst, mem_sortedBy] at hr
    obtain ⟨p, hp, rfl⟩ := List.mem_map.mp hr
    obtain ⟨hpp, hs⟩ := List.mem_filter.mp hp
    simp only [pathSurvives, Bool.and_eq_true, List.all_eq_true,
      decide_eq_true_eq] at hs
    exact ⟨st, p, rfl, hpp, hs.1, rfl⟩

/-- C2: for every graph and every choice of start service, hop bound and
score threshold, no path returned by `multi_hop_analysis` contains a node
whose stored health status is "healthy": every service name on a returned
path resolves to a graph node whose status differs from "healthy". -/
theorem C2_no_healthy_node_on_returned_paths :
    ∀ (g : Graph) (start : String) (maxHops : Nat) (minScore : Rat),
      ∀ rec ∈ multiHopAnalysis g start maxHops minScore,
        ∀ nm ∈ rec.path_services,
          ∃ n, findNode g nm = some n ∧ n.status ≠ "healthy" := by
  intro g start maxHops minScore rec hrec nm hnm
  obtain ⟨st, p, hst, hp, hhealthy, rfl⟩ := mem_multiHopAnalysis hrec
  simp only [mkRootCauseRecord, List.mem_map, List.mem_cons] at hnm
  obtain ⟨n, hn, rfl⟩ := hnm
  refine ⟨n, ?_, hhealthy n (List.mem_cons.mpr hn)⟩
  rcases hn with rfl | hn'
  · exact findNode_self hst
  · exact (pathsFrom_spec hp).2.2 n hn'

/-- C2 witness: on the end-to-end scenario graph the analysis returns a
record through node "B", and the theorem instantiated there yields the
concrete non-healthy resolution of "B". -/
theorem C2_witness :
    ∃ n, findNode scenarioGraph "B" = some n ∧ n.status ≠ "healthy" :=
  C2_no_healthy_node_on_returned_paths scenarioGraph "A" 3 (mkRat 1 2)
    { service := "B", ns := "default", status := "unhealthy", hops := 1,
      impact_score := mkRat 9 10, path_services := ["A", "B"] }
    (by decide) "B" (by decide)

/-- C3: `multi_hop_analysis` is a total function (the traversal recurses
on the hop bound, so it terminates on every graph, cyclic ones included),
and every returned record's hop count lies between 1 and `max_hops`. -/
theorem C3_hop_count_bounds :
    ∀ (g : Graph) (start : String) (maxHops : Nat) (minScore : Rat),
      ∀ rec ∈ multiHopAnalysis g start maxHops minScore,
        1 ≤ rec.hops ∧ rec.hops ≤ maxHops := by
  intro g start maxHops minScore rec hrec
  obtain ⟨st, p, _hst, hp, _hh, rfl⟩ := mem_multiHopAnalysis hrec
  have hb := (pathsFrom_spec hp).1
  simpa [mkRootCauseRecord] using hb

/-- C3 witness: the bounds at a record of the concrete scenario run. -/
theorem C3_witness :
    1 ≤ (2 : Nat) ∧ (2 : Nat) ≤ 3 :=
  C3_hop_count_bounds scenarioGraph "A" 3 (mkRat 1 2)
    { service := "C", ns := "default", status := "unhealthy", hops := 2,
      impact_score := mkRat 81 100, path_services := ["A", "B", "C"] }
    (by decide)

/-- C1: evaluating the spec's end-to-end scenario through the repository's
own writers. `add_dependency`'s `SET` clause never persists the `metrics`
field of its `Dependency` argument, so the stored edge B→C carries no
metric annotations (every stored edge has `metrics = none`), the
`r.metrics IS NOT NULL` branch of the score fold cannot fire, and the
path A→B→C scores 0.9 × 0.9 = 0.81 — not the claimed 0.9 × 0.8 = 0.72.
The fold itself does start at 1.0 and multiply 0.8/0.9 per edge as the
claim describes; the 0.72 outcome is unreachable through this code. -/
theorem C1_scenario_metrics_dropped :
    multiHopAnalysis scenarioGraph "A" 3 (mkRat 1 2) =
      [{ service := "B", ns := "default", status := "unhealthy", hops := 1,
         impact_score := mkRat 9 10, path_services := ["A", "B"] },
       { service := "C", ns := "default", status := "unhealthy", hops := 2,
         impact_score := mkRat 81 100, path_services := ["A", "B", "C"] }] ∧
    scenarioGraph.edges.all (fun e => e.metrics.isNone) = true ∧
    mkRat 81 100 ≠ mkRat 72 100 := by
  decide

/-- `add_dependency` reports success on every non-exception path. -/
theorem addDependency_snd (g : Graph) (d : Dependency) :
    (addDependency g d).2 = true := by
  unfold addDependency
  split
  · split <;> rfl
  · rfl

/-- With a missing endpoint the whole statement is a no-op that still
reports success. -/
theorem addDependency_noop {g : Graph} {d : Dependency}
    (h : endpointsExist g d = false) : addDependency g d = (g, true) := by
  unfold addDependency
  rw [if_neg (by simp [h])]

/-- `add_dependency` leaves the node set untouched. -/
theorem addDependency_nodes (g : Graph) (d : Dependency) :
    (addDependency g d).1.nodes = g.nodes := by
  unfold addDependency
  split
  · split <;> rfl
  · rfl

theorem setEdgeProps_key (d : Dependency) (e : DepEdge) :
    edgeKeyMatches d (setEdgeProps d e) = edgeKeyMatches d e := by
  by_cases h : edgeKeyMatches d e = true
  · obtain ⟨h1, h2⟩ : e.source = d.source ∧ e.target = d.target := by
      simpa [edgeKeyMatches] using h
    simp [setEdgeProps, edgeKeyMatches, h1, h2]
  · have hf : edgeKeyMatches d e = false := by simpa using h
    simp [setEdgeProps, hf]

theorem setEdgeProps_of_no_match {d : Dependency} {e : DepEdge}
    (h : edgeKeyMatches d e = false) : setEdgeProps d e = e := by
  unfold setEdgeProps
  rw [if_neg (by simp [h])]

theorem setEdgeProps_idem (d : Dependency) (e : DepEdge) :
    setEdgeProps d (setEdgeProps d e) = setEdgeProps d e := by
  by_cases h : edgeKeyMatches d e = true
  · obtain ⟨h1, h2⟩ : e.source = d.source ∧ e.target = d.target := by
      simpa [edgeKeyMatches] using h
    simp [setEdgeProps, edgeKeyMatches, h1, h2]
  · have hf : edgeKeyMatches d e = false := by simpa using h
    rw [setEdgeProps_of_no_match hf, setEdgeProps_of_no_match hf]

theorem newEdge_matches (d : Dependency) : edgeKeyMatches d (newEdge d) = true := by
  simp [edgeKeyMatches, newEdge]

theorem setEdgeProps_newEdge (d : Dependency) :
    setEdgeProps d (newEdge d) = newEdge d := by
  simp [setEdgeProps, newEdge_matches, newEdge]

/-- `map f l = l` when `f` fixes every member. -/
theorem map_eq_self_of_fix {f : α → α} {l : List α}
    (h : ∀ a ∈ l, f a = a) : l.map f = l := by
  induction l with
  | nil => rfl
  | cons a l ih =>
    simp only [List.map_cons, h a (List.mem_cons_self a l),
      ih (fun b hb => h b (List.mem_cons_of_mem a hb))]

/-- The merge branch of `add_dependency` when the key already exists. -/
theorem addDependency_eq_update {g : Graph} {d : Dependency}
    (hP : endpointsExist g d = true) (hE : g.edges.any (edgeKeyMatches d) = true) :
    addDependency g d = ({ g with edges := g.edges.map (setEdgeProps d) }, true) := by
  unfold addDependency
  rw [if_pos hP, if_pos hE]

/-- The create branch of `add_dependency` when the key is absent. -/
theorem addDependency_eq_insert {g : Graph} {d : Dependency}
    (hP : endpointsExist g d = true) (hE : g.edges.any (edgeKeyMatches d) = false) :
    addDependency g d = ({ g with edges := g.edges ++ [newEdge d] }, true) := by
  unfold addDependency
  rw [if_pos hP, if_neg (by simp [hE])]

theorem any_key_map (d : Dependency) (l : List DepEdge) :
    (l.map (setEdgeProps d)).any (edgeKeyMatches d) = l.any (edgeKeyMatches d) := by
  rw [List.any_map]
  have : edgeKeyMatches d ∘ setEdgeProps d = edgeKeyMatches d :=
    funext (setEdgeProps_key d)
  rw [this]

/-- C4 counterexample: with an empty graph (so neither endpoint of the
edge exists) `add_dependency` does not fail with any error — it returns
success `True` and leaves the graph unchanged, contradicting the claim
that it "fails with a NotFound error and does not report success". -/
theorem C4_counterexample :
    (addDependency { nodes := [], edges := [] } (dep "A" "B" none)).2 = true ∧
    (addDependency { nodes := [], edges := [] } (dep "A" "B" none)).1 =
      { nodes := [], edges := [] } := by
  decide

/-- C4 (amended): `add_dependency` always reports success; it is an
idempotent merge keyed by (source, target); when either endpoint is
missing it silently leaves the graph unchanged (no NotFound error); and
when both endpoints exist the merged key is present afterwards. -/
theorem C4_upsert_dependency :
    ∀ (g : Graph) (d : Dependency),
      (addDependency g d).2 = true ∧
      addDependency (addDependency g d).1 d = addDependency g d ∧
      (endpointsExist g d = false → (addDependency g d).1 = g) ∧
      (endpointsExist g d = true →
        (addDependency g d).1.edges.any (edgeKeyMatches d) = true) := by
  intro g d
  refine ⟨addDependency_snd g d, ?_, ?_, ?_⟩
  · -- idempotence of the merge
    by_cases hP : endpointsExist g d = true
    · by_cases hE : g.edges.any (edgeKeyMatches d) = true
      · have h1 := addDependency_eq_update hP hE
        rw [h1]
        have hP1 : endpointsExist { g with edges := g.edges.map (setEdgeProps d) } d = true := by
          simpa [endpointsExist] using hP
        have hE1 : ({ g with edges := g.edges.map (setEdgeProps d) } : Graph).edges.any
            (edgeKeyMatches d) = true := by
          show (g.edges.map (setEdgeProps d)).any (edgeKeyMatches d) = true
          rw [any_key_map]
          exact hE
        rw [addDependency_eq_update hP1 hE1]
        simp [List.map_map, Function.comp_def, setEdgeProps_idem]
      · have hEf : g.edges.any (edgeKeyMatches d) = false := by simpa using hE
        have h1 := addDependency_eq_insert hP hEf
        rw [h1]
        have hP1 : endpointsExist { g with edges := g.edges ++ [newEdge d] } d = true := by
          simpa [endpointsExist] using hP
        have hE1 : ({ g with edges := g.edges ++ [newEdge d] } : Graph).edges.any
            (edgeKeyMatches d) = true := by
          simp [newEdge_matches]
        rw [addDependency_eq_update hP1 hE1]
        have hfix : ∀ e ∈ g.edges, setEdgeProps d e = e := by
          intro e he
          apply setEdgeProps_of_no_match
          by_contra hc
          have : g.edges.any (edgeKeyMatches d) = true :=
            List.any_eq_true.mpr ⟨e, he, by simpa using hc⟩
          rw [this] at hEf
          simp at hEf
        have hmap : (g.edges ++ [newEdge d]).map (setEdgeProps d) = g.edges ++ [newEdge d] := by
          rw [List.map_append, map_eq_self_of_fix hfix]
          simp [setEdgeProps_newEdge]
        simp [hmap]
    · have hPf : endpointsExist g d = false := by simpa using hP
      have h1 := addDependency_noop hPf
      rw [h1]
      exact h1
  · intro h
    rw [addDependency_noop h]
  · intro hP
    by_cases hE : g.edges.any (edgeKeyMatches d) = true
    · rw [addDependency_eq_update hP hE]
      show (g.edges.map (setEdgeProps d)).any (edgeKeyMatches d) = true
      rw [any_key_map]
      exact hE
    · rw [addDependency_eq_insert hP (by simpa using hE)]
      simp [newEdge_matches]

/-- C4 witness: the amended behavior at concrete inputs — idempotence of
the merge on the scenario graph, and the silent success on the empty
graph. -/
theorem C4_witness :
    addDependency (addDependency scenarioGraph (dep "A" "B" none)).1 (dep "A" "B" none) =
      addDependency scenarioGraph (dep "A" "B" none) ∧
    (addDependency { nodes := [], edges := [] } (dep "C" "D" none)).1 =
      { nodes := [], edges := [] } :=
  ⟨(C4_upsert_dependency scenarioGraph (dep "A" "B" none)).2.1,
   (C4_upsert_dependency { nodes := [], edges := [] } (dep "C" "D" none)).2.2.1 (by decide)⟩

/-- `Tool.execute` behaves identically under any declared schema: only
the implementation signature and the implementation itself matter. -/
theorem toolExecute_schema_free (t : ToolDef) (sch : ToolSchema)
    (args : List (String × Json)) :
    toolExecute { t with parameters := sch } args = toolExecute t args := rfl

/-- The `get_service_status` tool exactly as `RootCauseAnalyzer.__init__`
registers it: the declared schema marks both `service_name` and
`namespace` as required, while the Python implementation
(`tools/k8s_tools.get_service_status(service_name, namespace="default")`)
gives `namespace` a default. The implementation body is external
Kubernetes I/O; the oracle returns a marker value whose appearance in the
result witnesses that the implementation ran. -/
def getServiceStatusTool : ToolDef :=
  { name := "get_service_status",
    description := "Get the status of a Kubernetes service",
    parameters := { properties := ["service_name", "namespace"],
                    required := ["service_name", "namespace"] },
    py_params := [{ name := "service_name", has_default := false },
                  { name := "namespace", has_default := true }],
    impl := fun _ => .ok (Json.str "implementation-ran") }

/-- C5 counterexample: invoking `get_service_status` with arguments that
omit the schema-required `namespace` parameter does not fail with any
`InvalidArguments` error and does run the implementation — the call binds
against the Python signature (which defaults `namespace`) and the
implementation's result comes back as the tool result. -/
theorem C5_counterexample :
    executeToolCalls [getServiceStatusTool]
      [{ name := "get_service_status",
         args := [("service_name", Json.str "payments")] }] =
      .ok [("get_service_status", Json.str "implementation-ran")] ∧
    getServiceStatusTool.parameters.required.contains "namespace" = true ∧
    ((["service_name"] : List String).contains "namespace") = false :=
  ⟨rfl, by decide, by decide⟩

/-- C5 (amended): tool invocation performs no validation against the
declared parameter schema. The outcome of `_execute_tool_calls` is fully
determined by the tool lookup, the Python call binding and the
implementation: (1) replacing every tool's declared schema changes
nothing; (2) when the tool is found and the arguments bind against the
implementation signature, the implementation runs — whether or not the
schema's `required` list is satisfied — and its result (or raised
exception) is the outcome; (3) when the arguments do not bind, the call
raises `TypeError`, aborting the batch (converted to an agent-level
failure by `OllamaAgent.execute`, not to a per-tool `InvalidArguments`);
(4) an unknown tool name records an error entry. -/
theorem C5_no_schema_validation :
    (∀ (ts : List ToolDef) (sch : ToolSchema) (acc : List (String × Json))
        (calls : List ToolCall),
       executeToolCallsAux (ts.map (fun t => { t with parameters := sch })) acc calls =
         executeToolCallsAux ts acc calls) ∧
    (∀ (ts : List ToolDef) (c : ToolCall) (t : ToolDef),
       ts.find? (fun t' => decide (t'.name = c.name)) = some t →
       bindOk t.py_params (c.args.map (fun a => a.1)) = true →
       executeToolCalls ts [c] = (t.impl c.args).map (fun r => [(c.name, r)])) ∧
    (∀ (ts : List ToolDef) (c : ToolCall) (t : ToolDef),
       ts.find? (fun t' => decide (t'.name = c.name)) = some t →
       bindOk t.py_params (c.args.map (fun a => a.1)) = false →
       executeToolCalls ts [c] =
         .error (.typeError ("unexpected or missing keyword argument for " ++ t.name))) ∧
    (∀ (ts : List ToolDef) (c : ToolCall),
       ts.find? (fun t' => decide (t'.name = c.name)) = none →
       executeToolCalls ts [c] =
         .ok [(c.name, Json.obj [("error", Json.str ("Tool " ++ c.name ++ " not found"))])]) := by
  refine ⟨?_, ?_, ?_, ?_⟩
  · intro ts sch acc calls
    induction calls generalizing acc with
    | nil => rfl
    | cons c cs ih =>
      have hfind : (ts.map (fun t => { t with parameters := sch })).find?
          (fun t' => decide (t'.name = c.name)) =
          (ts.find? (fun t' => decide (t'.name = c.name))).map
            (fun t => { t with parameters := sch }) := by
        rw [List.find?_map]
        rfl
      cases hf : ts.find? (fun t' => decide (t'.name = c.name)) with
      | none =>
        have h2 : (ts.map (fun t => { t with parameters := sch })).find?
            (fun t' => decide (t'.name = c.name)) = none := by
          rw [hfind, hf]
          rfl
        simp only [executeToolCallsAux, h2, hf]
        exact ih _
      | some t =>
        have h2 : (ts.map (fun t => { t with parameters := sch })).find?
            (fun t' => decide (t'.name = c.name)) = some { t with parameters := sch } := by
          rw [hfind, hf]
          rfl
        simp only [executeToolCallsAux, h2, hf]
        rw [toolExecute_schema_free]
        cases hr : toolExecute t c.args with
        | ok r =>
          show executeToolCallsAux (ts.map (fun t => { t with parameters := sch }))
              (dictInsert c.name r acc) cs =
            executeToolCallsAux ts (dictInsert c.name r acc) cs
          exact ih (dictInsert c.name r acc)
        | error e =>
          rfl
  · intro ts c t hf hbind
    simp only [executeToolCalls, executeToolCallsAux, hf]
    simp only [toolExecute]
    rw [if_pos (by simp [hbind])]
    cases hr : t.impl c.args with
    | ok r => rfl
    | error e => rfl
  · intro ts c t hf hbind
    simp only [executeToolCalls, executeToolCallsAux, hf]
    simp only [toolExecute]
    rw [if_neg (by simp [hbind])]
    rfl
  · intro ts c hf
    simp only [executeToolCalls, executeToolCallsAux, hf]
    rfl

/-- C5 witness: the amended behavior at concrete inputs — an unknown tool
name yields an error entry, and a bound call runs the implementation. -/
theorem C5_witness :
    executeToolCalls [] [{ name := "nope", args := [] }] =
      .ok [("nope", Json.obj [("error", Json.str "Tool nope not found")])] ∧
    executeToolCalls [getServiceStatusTool]
      [{ name := "get_service_status",
         args := [("service_name", Json.str "a"), ("namespace", Json.str "b")] }] =
      .ok [("get_service_status", Json.str "implementation-ran")] :=
  ⟨C5_no_schema_validation.2.2.2 [] { name := "nope", args := [] } rfl,
   C5_no_schema_validation.2.1 [getServiceStatusTool]
     { name := "get_service_status",
       args := [("service_name", Json.str "a"), ("namespace", Json.str "b")] }
     getServiceStatusTool rfl (by decide)⟩

/-- A patch collaborator that always succeeds (the two fixed YAML patches
are external Kubernetes effects; their outcome is irrelevant to the
counterexample, which raises before any patch is attempted). -/
def applyPatchNull : PatchKind → Json → Json → Except PyErr Json :=
  fun _ _ _ => .ok Json.null

/-- A context whose remediation-advisor finding carries an `actions`
collection with a non-dictionary element — a legal `Dict[str, Any]`
payload (reachable e.g. from a generic LLM-backed agent registered under
the advisor's name, whose parsed response is arbitrary JSON). -/
def ctxBad : AgentContext :=
  { incident_id := "INC-001", service_name := "payments", ns := "default",
    symptoms := ["down"],
    findings := [{ agent := "remediation_advisor",
                   message := "Generated 1 recommendations and 1 actions",
                   data := Json.obj [("actions", Json.arr [Json.num 5])] }],
    actions_taken := [Json.num 5], metadata := Json.obj [] }

/-- C6 counterexample: with `auto_execute` unset, `ActionExecutor.execute`
evaluates `action.get("severity")` outside any `try`; on the
non-dictionary action above this raises `AttributeError`, which
propagates out of the agent's `execute` (there is no top-level handler in
this override) instead of being converted into an
`AgentResult{success:false}` — so an agent invocation CAN raise into the
Orchestrator loop. -/
theorem C6_counterexample :
    actionExecutorExecute false applyPatchNull ctxBad =
      .error (PyErr.attributeError "object has no attribute get: severity") := rfl

/-- C6 (amended): `OllamaAgent.execute` does convert every failure raised
during its body (reasoning-service error, tool error, parse error) into a
returned `AgentResult` with `success = false` and a human-readable cause,
entering the `Error` state and never propagating; but the specialized
overrides guard only parts of their bodies, and `ActionExecutor.execute`
can propagate a raised fault to the Orchestrator loop (which has no
per-agent handler). -/
theorem C6_error_conversion :
    (∀ (name : String) (tools : List ToolDef) (oracle : ReasoningOracle)
        (loads : String → Option Json) (ctx : AgentContext) (e : PyErr),
       ollamaBody tools oracle loads = .error e →
         (ollamaAgentExecute name tools oracle loads ctx).1 = AgentState.error ∧
         (ollamaAgentExecute name tools oracle loads ctx).2.success = false ∧
         (ollamaAgentExecute name tools oracle loads ctx).2.message =
           "Error executing " ++ name ++ ": " ++ pyErrStr e) ∧
    (∀ (name : String) (tools : List ToolDef) (oracle : ReasoningOracle)
        (loads : String → Option Json) (ctx : AgentContext) (r : AgentResult),
       ollamaBody tools oracle loads = .ok r →
         ollamaAgentExecute name tools oracle loads ctx = (AgentState.completed, r)) ∧
    (∀ applyPatch : PatchKind → Json → Json → Except PyErr Json,
       ∃ (ctx : AgentContext) (e : PyErr),
         actionExecutorExecute false applyPatch ctx = .error e) := by
  refine ⟨?_, ?_, ?_⟩
  · intro name tools oracle loads ctx e h
    unfold ollamaAgentExecute
    rw [h]
    exact ⟨rfl, rfl, rfl⟩
  · intro name tools oracle loads ctx r h
    unfold ollamaAgentExecute
    rw [h]
  · intro applyPatch
    exact ⟨ctxBad, PyErr.attributeError "object has no attribute get: severity", rfl⟩

/-- A reasoning-service oracle whose call raises (service unreachable). -/
def oracleDown : ReasoningOracle :=
  { first := .error (.typeError "connection refused"),
    second := .error (.typeError "connection refused") }

/-- C6 witness: the conversion at a concrete unreachable-service input,
and the existence of a propagating `ActionExecutor` input. -/
theorem C6_witness :
    (ollamaAgentExecute "triage" [] oracleDown (fun _ => none)
        (initialContext "INC-001" "payments" "default" [])).2.success = false ∧
    (∃ (ctx : AgentContext) (e : PyErr),
       actionExecutorExecute false applyPatchNull ctx = .error e) :=
  ⟨(C6_error_conversion.1 "triage" [] oracleDown (fun _ => none)
      (initialContext "INC-001" "payments" "default" [])
      (PyErr.typeError "connection refused") rfl).2.1,
   C6_error_conversion.2.2 applyPatchNull⟩

theorem exceptBind_ok (a : α) (f : α → Except ε β) :
    (Except.ok a >>= f) = f a := rfl

theorem exceptBind_error (e : ε) (f : α → Except ε β) :
    ((Except.error e : Except ε α) >>= f) = Except.error e := rfl

theorem runFlow_cons_none {agents : String → Option (AgentContext → Except PyErr AgentResult)}
    {name : String} (rest : List String) (s : RunState)
    (ha : agents name = none) :
    runFlow agents (name :: rest) s =
      runFlow agents rest { s with results := s.results ++ [StepEntry.notFound name] } := by
  simp only [runFlow, ha]

theorem runFlow_cons_some {agents : String → Option (AgentContext → Except PyErr AgentResult)}
    {name : String} (rest : List String) (s : RunState)
    {ag : AgentContext → Except PyErr AgentResult}
    (ha : agents name = some ag) :
    runFlow agents (name :: rest) s =
      (ag s.ctx >>= fun r =>
        applyResultToContext s.ctx name r >>= fun ctx' =>
          if r.terminate then
            Except.ok
              { ctx := ctx',
                results := s.results ++ [StepEntry.executed name r.success r.message r.data],
                history := s.history ++ [{ agent := name, result := r }],
                terminated := true }
          else
            runFlow agents rest
              { ctx := ctx',
                results := s.results ++ [StepEntry.executed name r.success r.message r.data],
                history := s.history ++ [{ agent := name, result := r }],
                terminated := s.terminated }) := by
  simp only [runFlow, ha]

/-- C7: once a step's result carries `terminate = true`, the run of the
flow stops there — appending any further steps to the flow changes
nothing: no later agent executes and no later per-step entry appears.
And `ActionExecutor.execute`, whenever it returns a result at all,
returns one with `terminate = true`. -/
theorem C7_terminate_stops_flow :
    (∀ (agents : String → Option (AgentContext → Except PyErr AgentResult))
        (pre post : List String) (s₀ s₁ : RunState),
       s₀.terminated = false →
       runFlow agents pre s₀ = .ok s₁ →
       s₁.terminated = true →
       runFlow agents (pre ++ post) s₀ = .ok s₁) ∧
    (∀ (auto : Bool) (applyPatch : PatchKind → Json → Json → Except PyErr Json)
        (ctx : AgentContext) (st : AgentState) (r : AgentResult),
       actionExecutorExecute auto applyPatch ctx = .ok (st, r) →
       r.terminate = true) := by
  constructor
  · intro agents pre post s₀ s₁ h0 hrun hterm
    induction pre generalizing s₀ with
    | nil =>
      simp only [runFlow] at hrun
      obtain rfl : s₀ = s₁ := by
        cases hrun
        rfl
      rw [h0] at hterm
      cases hterm
    | cons name rest ih =>
      rw [List.cons_append]
      cases ha : agents name with
      | none =>
        rw [runFlow_cons_none rest s₀ ha] at hrun
        rw [runFlow_cons_none (rest ++ post) s₀ ha]
        exact ih _ h0 hrun
      | some ag =>
        rw [runFlow_cons_some rest s₀ ha] at hrun
        rw [runFlow_cons_some (rest ++ post) s₀ ha]
        cases hr : ag s₀.ctx with
        | error e =>
          rw [hr, exceptBind_error] at hrun
          cases hrun
        | ok r =>
          simp only [hr, exceptBind_ok] at hrun ⊢
          cases hc : applyResultToContext s₀.ctx name r with
          | error e =>
            simp only [hc, exceptBind_error] at hrun
            cases hrun
          | ok ctx' =>
            simp only [hc, exceptBind_ok] at hrun ⊢
            cases hterm2 : r.terminate with
            | true =>
              simp only [hterm2, if_pos rfl] at hrun ⊢
              exact hrun
            | false =>
              simp only [hterm2, Bool.false_eq_true, if_false, reduceIte] at hrun ⊢
              exact ih _ h0 hrun
  · intro auto applyPatch ctx st r h
    unfold actionExecutorExecute at h
    cases hE : actionExecutorEntries auto applyPatch ctx with
    | error e =>
      rw [hE, exceptBind_error] at h
      cases h
    | ok entries =>
      rw [hE, exceptBind_ok] at h
      cases h
      rfl

/-- An agent that always succeeds and terminates the workflow (the shape
`ActionExecutor` presents to the loop). -/
def terminatingAgent : AgentContext → Except PyErr AgentResult :=
  fun _ => .ok { success := true, message := "done", data := Json.obj [],
                 next_agent := none, terminate := true }

/-- A registry holding only the terminating agent. -/
def agentsW : String → Option (AgentContext → Except PyErr AgentResult) :=
  fun n => if n = "action_executor" then some terminatingAgent else none

/-- The loop state at the start of a run. -/
def runStart : RunState :=
  { ctx := initialContext "INC-001" "payments" "default" ["down"],
    results := [], history := [], terminated := false }

/-- The loop state after the terminating step. -/
def runStop : RunState :=
  { ctx := { incident_id := "INC-001", service_name := "payments",
             ns := "default", symptoms := ["down"],
             findings := [{ agent := "action_executor", message := "done",
                            data := Json.obj [] }],
             actions_taken := [], metadata := Json.obj [] },
    results := [StepEntry.executed "action_executor" true "done" (Json.obj [])],
    history := [{ agent := "action_executor",
                  result := { success := true, message := "done",
                              data := Json.obj [], next_agent := none,
                              terminate := true } }],
    terminated := true }

/-- C7 witness: a concrete flow whose first step terminates — the run
over the extended flow equals the run over the one-step flow, and a
concrete `ActionExecutor` return has `terminate = true`. -/
theorem C7_witness :
    runFlow agentsW ["action_executor", "remediation_advisor"] runStart = .ok runStop ∧
    ({ success := true,
       message := "Executed 0 actions, 0 pending approval",
       data := Json.obj [("executed_actions", Json.arr []), ("terminate", Json.bool true)],
       next_agent := none, terminate := true } : AgentResult).terminate = true :=
  ⟨C7_terminate_stops_flow.1 agentsW ["action_executor"] ["remediation_advisor"]
      runStart runStop rfl rfl rfl,
   C7_terminate_stops_flow.2 false applyPatchNull
      (initialContext "INC-001" "payments" "default" []) AgentState.completed
      { success := true,
        message := "Executed 0 actions, 0 pending approval",
        data := Json.obj [("executed_actions", Json.arr []), ("terminate", Json.bool true)],
        next_agent := none, terminate := true } rfl⟩

/-- What one executed step does to the shared context: on success it
appends exactly the step's finding and extends `actions_taken` by some
list (empty unless the result data carries an `actions` collection); on
failure it leaves the context untouched. -/
theorem applyResultToContext_spec {ctx : AgentContext} {name : String}
    {r : AgentResult} {ctx' : AgentContext}
    (h : applyResultToContext ctx name r = .ok ctx') :
    ∃ acts : List Json,
      ctx'.findings = ctx.findings ++ (if r.success then [mkFinding name r] else []) ∧
      ctx'.actions_taken = ctx.actions_taken ++ acts := by
  unfold applyResultToContext at h
  cases hs : r.success with
  | false =>
    rw [hs] at h
    simp only [Bool.false_eq_true, if_neg] at h ⊢
    cases h
    exact ⟨[], by simp, by simp⟩
  | true =>
    rw [hs] at h
    simp only [if_pos rfl] at h ⊢
    cases hb : pyContains r.data "actions" with
    | error e =>
      rw [hb, exceptBind_error] at h
      cases h
    | ok b =>
      rw [hb, exceptBind_ok] at h
      cases b with
      | false =>
        simp only [Bool.false_eq_true, if_neg] at h
        cases h
        exact ⟨[], rfl, by simp⟩
      | true =>
        simp only [if_pos rfl] at h
        cases hv : pySubscript r.data "actions" with
        | error e =>
          rw [hv, exceptBind_error] at h
          cases h
        | ok av =>
          rw [hv, exceptBind_ok] at h
          cases hi : pyIter av with
          | error e =>
            rw [hi, exceptBind_error] at h
            cases h
          | ok newActs =>
            rw [hi, exceptBind_ok] at h
            cases h
            exact ⟨newActs, rfl, rfl⟩

/-- C8: over any completed stretch of the step loop, the history grows by
some list of executed-step entries, the findings grow by EXACTLY the
findings of the successful ones among them (in order — so a step's result
reaches the findings only when `success = true`), and `actions_taken`
grows by appending only. Nothing is ever removed or replaced. -/
theorem C8_context_append_only :
    ∀ (agents : String → Option (AgentContext → Except PyErr AgentResult))
      (flow : List String) (s₀ s₁ : RunState),
      runFlow agents flow s₀ = .ok s₁ →
      ∃ hs : List HistEntry,
        s₁.history = s₀.history ++ hs ∧
        s₁.ctx.findings = s₀.ctx.findings ++
          (hs.filter (fun h => h.result.success)).map
            (fun h => mkFinding h.agent h.result) ∧
        ∃ acts : List Json,
          s₁.ctx.actions_taken = s₀.ctx.actions_taken ++ acts := by
  intro agents flow s₀ s₁ hrun
  induction flow generalizing s₀ with
  | nil =>
    simp only [runFlow] at hrun
    cases hrun
    exact ⟨[], by simp, by simp, [], by simp⟩
  | cons name rest ih =>
    cases ha : agents name with
    | none =>
      rw [runFlow_cons_none rest s₀ ha] at hrun
      exact ih { ctx := s₀.ctx, results := s₀.results ++ [StepEntry.notFound name],
                 history := s₀.history, terminated := s₀.terminated } hrun
    | some ag =>
      rw [runFlow_cons_some rest s₀ ha] at hrun
      cases hr : ag s₀.ctx with
      | error e =>
        rw [hr, exceptBind_error] at hrun
        cases hrun
      | ok r =>
        simp only [hr, exceptBind_ok] at hrun
        cases hc : applyResultToContext s₀.ctx name r with
        | error e =>
          simp only [hc, exceptBind_error] at hrun
          cases hrun
        | ok ctx' =>
          simp only [hc, exceptBind_ok] at hrun
          obtain ⟨acts1, hf1, ha1⟩ := applyResultToContext_spec hc
          cases hterm : r.terminate with
          | true =>
            simp only [hterm, if_pos rfl] at hrun
            cases hrun
            refine ⟨[{ agent := name, result := r }], by simp, ?_, acts1, ha1⟩
            simp only [List.filter_cons, List.filter_nil]
            cases hs2 : r.success with
            | true => simpa [hs2, mkFinding] using hf1
            | false => simpa [hs2] using hf1
          | false =>
            simp only [hterm, Bool.false_eq_true, if_false, reduceIte] at hrun
            obtain ⟨hs', hh', hff', acts', haa'⟩ := ih _ hrun
            refine ⟨{ agent := name, result := r } :: hs', ?_, ?_, acts1 ++ acts', ?_⟩
            · simpa using hh'
            · rw [hff', hf1]
              simp only [List.filter_cons]
              cases hs2 : r.success with
              | true => simp [hs2, List.append_assoc]
              | false => simp [hs2]
            · rw [haa', ha1]
              simp [List.append_assoc]

/-- C8 witness: the characterization at a concrete completed run. -/
theorem C8_witness :
    ∃ hs : List HistEntry,
      runStop.history = runStart.history ++ hs ∧
      runStop.ctx.findings = runStart.ctx.findings ++
        (hs.filter (fun h => h.result.success)).map
          (fun h => mkFinding h.agent h.result) ∧
      ∃ acts : List Json,
        runStop.ctx.actions_taken = runStart.ctx.actions_taken ++ acts :=
  C8_context_append_only agentsW ["action_executor"] runStart runStop rfl

/-- A keyword category fires when some symptom, lowercased, IS one of the
keywords (list membership = exact string equality, case-insensitively). -/
abbrev symptomMatches (symptoms : List String) (kws : List String) : Prop :=
  ∃ t ∈ symptoms, strLower t ∈ kws

/-- The code's `any(s in symptoms_lower for s in kws)` test is exactly
`symptomMatches`. -/
theorem ruleCond_iff (symptoms kws : List String) :
    (kws.any (fun s => (symptoms.map (fun t => strLower t)).contains s) = true) ↔
      symptomMatches symptoms kws := by
  rw [List.any_eq_true]
  constructor
  · rintro ⟨k, hk, hc⟩
    have hmem : k ∈ symptoms.map (fun t => strLower t) := by simpa using hc
    obtain ⟨t, ht, rfl⟩ := List.mem_map.mp hmem
    exact ⟨t, ht, hk⟩
  · rintro ⟨t, ht, hk⟩
    refine ⟨strLower t, hk, ?_⟩
    simpa using List.mem_map_of_mem (fun t => strLower t) ht

/-- Each of the four branch conditions is invariant under permutation of
the symptom list. -/
theorem ruleCond_perm {l₁ l₂ : List String} (h : l₁.Perm l₂) (kws : List String) :
    (kws.any (fun s => (l₁.map (fun t => strLower t)).contains s)) =
      (kws.any (fun s => (l₂.map (fun t => strLower t)).contains s)) := by
  apply Bool.eq_iff_iff.mpr
  rw [ruleCond_iff, ruleCond_iff]
  constructor
  · rintro ⟨t, ht, hk⟩
    exact ⟨t, h.mem_iff.mp ht, hk⟩
  · rintro ⟨t, ht, hk⟩
    exact ⟨t, h.mem_iff.mpr ht, hk⟩

/-- When no category fires, the fallback returns unknown/unknown. -/
theorem ruleBased_no_match {symptoms : List String}
    (h1 : ¬ symptomMatches symptoms availabilityKeywords)
    (h2 : ¬ symptomMatches symptoms performanceKeywords)
    (h3 : ¬ symptomMatches symptoms resourceKeywords)
    (h4 : ¬ symptomMatches symptoms degradationKeywords) :
    ruleBasedClassification symptoms = ("unknown", "unknown") := by
  simp only [ruleBasedClassification]
  rw [if_neg (fun hc => h1 ((ruleCond_iff symptoms availabilityKeywords).mp hc)),
      if_neg (fun hc => h2 ((ruleCond_iff symptoms performanceKeywords).mp hc)),
      if_neg (fun hc => h3 ((ruleCond_iff symptoms resourceKeywords).mp hc)),
      if_neg (fun hc => h4 ((ruleCond_iff symptoms degradationKeywords).mp hc))]

/-- C9: the rule-based triage fallback is a pure function of the symptom
list (no reasoning-service oracle appears among its inputs); on
`["pod crash", "down"]` it yields `("critical", "availability")`; in
general the first matching category in the fixed priority order
availability → performance → resource → degradation wins, with
`("unknown", "unknown")` when no category fires; and the outcome is
order-independent over the symptom list. -/
theorem C9_triage_fallback :
    ruleBasedClassification ["pod crash", "down"] = ("critical", "availability") ∧
    (∀ symptoms, symptomMatches symptoms availabilityKeywords →
       ruleBasedClassification symptoms = ("critical", "availability")) ∧
    (∀ symptoms, ¬ symptomMatches symptoms availabilityKeywords →
       symptomMatches symptoms performanceKeywords →
       ruleBasedClassification symptoms = ("high", "performance")) ∧
    (∀ symptoms, ¬ symptomMatches symptoms availabilityKeywords →
       ¬ symptomMatches symptoms performanceKeywords →
       symptomMatches symptoms resourceKeywords →
       ruleBasedClassification symptoms = ("medium", "resource")) ∧
    (∀ symptoms, ¬ symptomMatches symptoms availabilityKeywords →
       ¬ symptomMatches symptoms performanceKeywords →
       ¬ symptomMatches symptoms resourceKeywords →
       symptomMatches symptoms degradationKeywords →
       ruleBasedClassification symptoms = ("low", "degradation")) ∧
    (∀ symptoms, ¬ symptomMatches symptoms availabilityKeywords →
       ¬ symptomMatches symptoms performanceKeywords →
       ¬ symptomMatches symptoms resourceKeywords →
       ¬ symptomMatches symptoms degradationKeywords →
       ruleBasedClassification symptoms = ("unknown", "unknown")) ∧
    (∀ l₁ l₂ : List String, l₁.Perm l₂ →
       ruleBasedClassification l₁ = ruleBasedClassification l₂) := by
  refine ⟨by decide, ?_, ?_, ?_, ?_, ?_, ?_⟩
  · intro symptoms h1
    simp only [ruleBasedClassification]
    rw [if_pos ((ruleCond_iff symptoms availabilityKeywords).mpr h1)]
  · intro symptoms h1 h2
    simp only [ruleBasedClassification]
    rw [if_neg (fun hc => h1 ((ruleCond_iff symptoms availabilityKeywords).mp hc)),
        if_pos ((ruleCond_iff symptoms performanceKeywords).mpr h2)]
  · intro symptoms h1 h2 h3
    simp only [ruleBasedClassification]
    rw [if_neg (fun hc => h1 ((ruleCond_iff symptoms availabilityKeywords).mp hc)),
        if_neg (fun hc => h2 ((ruleCond_iff symptoms performanceKeywords).mp hc)),
        if_pos ((ruleCond_iff symptoms resourceKeywords).mpr h3)]
  · intro symptoms h1 h2 h3 h4
    simp only [ruleBasedClassification]
    rw [if_neg (fun hc => h1 ((ruleCond_iff symptoms availabilityKeywords).mp hc)),
        if_neg (fun hc => h2 ((ruleCond_iff symptoms performanceKeywords).mp hc)),
        if_neg (fun hc => h3 ((ruleCond_iff symptoms resourceKeywords).mp hc)),
        if_pos ((ruleCond_iff symptoms degradationKeywords).mpr h4)]
  · intro symptoms h1 h2 h3 h4
    exact ruleBased_no_match h1 h2 h3 h4
  · intro l₁ l₂ h
    simp only [ruleBasedClassification]
    rw [ruleCond_perm h availabilityKeywords, ruleCond_perm h performanceKeywords,
        ruleCond_perm h resourceKeywords, ruleCond_perm h degradationKeywords]

/-- C9 witness: the priority rule applied at concrete symptom lists. -/
theorem C9_witness :
    ruleBasedClassification ["DOWN"] = ("critical", "availability") ∧
    ruleBasedClassification ["warning", "timeout"] = ("high", "performance") :=
  ⟨C9_triage_fallback.2.1 ["DOWN"] (by decide),
   C9_triage_fallback.2.2.1 ["warning", "timeout"] (by decide) (by decide)⟩

/-- Every keyword of the four categories. -/
def allKeywords : List String :=
  availabilityKeywords ++ performanceKeywords ++ resourceKeywords ++ degradationKeywords

/-- C10: the fallback compares keywords against whole lowercased symptom
strings by list membership (exact equality), not substring containment:
any symptom list none of whose elements lowercases to one of the
keywords — `["pod crash"]` in particular, although it CONTAINS the
keyword "crash" as a substring — classifies as
`("unknown", "unknown")`. -/
theorem C10_membership_not_substring :
    ruleBasedClassification ["pod crash"] = ("unknown", "unknown") ∧
    (∀ symptoms, (∀ t ∈ symptoms, strLower t ∉ allKeywords) →
       ruleBasedClassification symptoms = ("unknown", "unknown")) := by
  constructor
  · decide
  · intro symptoms h
    have hnone : ∀ kws : List String,
        (∀ k ∈ kws, k ∈ allKeywords) → ¬ symptomMatches symptoms kws := by
      rintro kws hsub ⟨t, ht, hk⟩
      exact h t ht (hsub _ hk)
    exact ruleBased_no_match
      (hnone availabilityKeywords (by decide))
      (hnone performanceKeywords (by decide))
      (hnone resourceKeywords (by decide))
      (hnone degradationKeywords (by decide))

/-- C10 witness: a symptom list with keyword substrings but no exact
match classifies as unknown. -/
theorem C10_witness :
    ruleBasedClassification ["cpu spike", "network errors"] = ("unknown", "unknown") :=
  C10_membership_not_substring.2 ["cpu spike", "network errors"] (by decide)

end Aether
